import Mathlib

/-!
Shallow embedding of the `stream` package (packages/stream/src): the three
seekable byte-stream backends `SliceStream`, `MemoryStream` and `FileStream`.

Bytes are modelled as `Nat` (the code never computes on byte values), `u64`
and `usize` positions as `Nat`; the target is 64-bit, so `usize` holds every
value below `2 ^ 64`.  Fallible operations return `Option`/`Except`; a Rust
panic (out-of-bounds slice, arithmetic underflow in a debug build) is `none`.

For `FileStream` the model includes the pieces of the runtime the code leans
on: a POSIX regular file with one shared OS cursor (`Arc<File>` clones share
the cursor), `std::io::BufReader` (read-ahead buffering, default capacity
8192) and `std::io::BufWriter` (write buffering, default capacity 8192).
`File::read`/`File::write` on a regular file are modelled as transferring
`min(requested, available)` bytes resp. all bytes, the ordinary behaviour the
buffered wrappers assume; physical I/O failures are out of scope.
-/

namespace GoatStream

/-- Models `usize::try_from` applied to a position on a 64-bit target:
values below `2 ^ 64` convert, anything larger fails with a conversion
error. -/
def tryIntoUsize (n : Nat) : Option Nat :=
  if n < 2 ^ 64 then some n else none

/-- Structure `SliceStream` (slice.rs): a borrowed byte slice and a cursor. -/
structure SliceStream where
  buffer : List Nat
  position : Nat
deriving DecidableEq, Repr

/-- Function `SliceStream::new` (slice.rs): position starts at 0. -/
def SliceStream.new (buffer : List Nat) : SliceStream :=
  { buffer := buffer, position := 0 }

/-- Function `SliceStream::seek` (slice.rs lines 25-28):
`self.position = to.try_into()?; Ok(self.position.try_into()?)`.  The second
conversion (`usize` to `u64` on a 64-bit target) never fails. -/
def SliceStream.seek (s : SliceStream) (t : Nat) : Option (Nat × SliceStream) :=
  match tryIntoUsize t with
  | some p => some (p, { s with position := p })
  | none => none

/-- Function `SliceStream::read` (slice.rs lines 40-53).  The Rust function
fills a caller-supplied buffer of length `n` and returns `Ok(count)`; every
exit is `Ok`, so the model returns the bytes read and the new state. -/
def SliceStream.read (s : SliceStream) (n : Nat) : List Nat × SliceStream :=
  if s.buffer.length ≤ s.position then ([], s)
  else
    let sourcePosition := min (s.position + n) s.buffer.length
    let out := (s.buffer.drop s.position).take (sourcePosition - s.position)
    (out, { s with position := s.position + (sourcePosition - s.position) })

/-- Structure `MemoryStream` (memory.rs): an owned growable buffer and a
cursor. -/
structure MemoryStream where
  buffer : List Nat
  position : Nat
deriving DecidableEq, Repr

/-- Function `MemoryStream::new` (memory.rs): empty buffer, position 0. -/
def MemoryStream.new : MemoryStream :=
  { buffer := [], position := 0 }

/-- Function `MemoryStream::seek` (memory.rs lines 31-34), same shape as
`SliceStream::seek`. -/
def MemoryStream.seek (s : MemoryStream) (t : Nat) : Option (Nat × MemoryStream) :=
  match tryIntoUsize t with
  | some p => some (p, { s with position := p })
  | none => none

/-- Function `MemoryStream::len` (memory.rs lines 40-42): the owned buffer's
length. -/
def MemoryStream.len (s : MemoryStream) : Nat :=
  s.buffer.length

/-- Function `MemoryStream::read` (memory.rs lines 46-59), identical to
`SliceStream::read` against the owned buffer. -/
def MemoryStream.read (s : MemoryStream) (n : Nat) : List Nat × MemoryStream :=
  if s.buffer.length ≤ s.position then ([], s)
  else
    let sourcePosition := min (s.position + n) s.buffer.length
    let out := (s.buffer.drop s.position).take (sourcePosition - s.position)
    (out, { s with position := s.position + (sourcePosition - s.position) })

/-- Function `MemoryStream::write` (memory.rs lines 63-74).  The Rust code
computes `bytes_to_end = self.buffer.len() - self.position` in `usize`.
When `position > buffer.len()` that subtraction underflows (a panic in debug
builds) and, with the wrapped value, the slice
`buffer[position..position + bytes.len()]` is out of bounds (a panic in
release builds); either way the call never returns, modelled as `none`.
Otherwise the buffer is zero-extended when the write reaches past the end,
`bytes` is copied in at `position`, and the position advances. -/
def MemoryStream.write (s : MemoryStream) (bytes : List Nat) : Option (Nat × MemoryStream) :=
  if s.position ≤ s.buffer.length then
    let bytesToEnd := s.buffer.length - s.position
    let grown :=
      if bytesToEnd < bytes.length then
        s.buffer ++ List.replicate (bytes.length - bytesToEnd) 0
      else s.buffer
    some (bytes.length,
      { buffer := grown.take s.position ++ bytes ++ grown.drop (s.position + bytes.length),
        position := s.position + bytes.length })
  else
    none

/-- Function `MemoryStream::flush` (memory.rs lines 76-78): `Ok(())`, no
state change. -/
def MemoryStream.flush (s : MemoryStream) : MemoryStream := s

/-! ### The physical file and the std buffered wrappers -/

/-- A POSIX regular file: its contents and the OS cursor of the single open
file description that every `Arc<File>` clone in `FileStream` shares. -/
structure PhysFile where
  data : List Nat
  cursor : Nat
deriving DecidableEq, Repr

/-- Models `File::read` on a regular file: transfers
`min(requested, size - cursor)` bytes from the cursor and advances it. -/
def PhysFile.readBytes (f : PhysFile) (n : Nat) : List Nat × PhysFile :=
  let k := min n (f.data.length - f.cursor)
  ((f.data.drop f.cursor).take k, { f with cursor := f.cursor + k })

/-- Models `File::write` on a regular file: when the cursor sits past the end
the gap becomes zero bytes (a hole), the bytes overwrite or extend the
contents at the cursor, and the cursor advances. -/
def PhysFile.writeBytes (f : PhysFile) (bs : List Nat) : PhysFile :=
  let padded := f.data ++ List.replicate (f.cursor - f.data.length) 0
  { data := padded.take f.cursor ++ bs ++ padded.drop (f.cursor + bs.length),
    cursor := f.cursor + bs.length }

/-- Default capacity of `std::io::BufReader` and `std::io::BufWriter`. -/
def bufCap : Nat := 8192

/-- State of a `BufReader<Arc<File>>`: the bytes read ahead from the file but
not yet handed to the caller. -/
structure BufReaderSt where
  buf : List Nat
deriving DecidableEq, Repr

/-- Models `BufReader::read`: an empty buffer and a request of at least the
capacity bypasses buffering; an empty buffer otherwise refills from the file
(up to `bufCap` bytes of read-ahead) and serves from the fresh buffer; a
non-empty buffer serves from the buffer without touching the file. -/
def BufReaderSt.readBytes (r : BufReaderSt) (f : PhysFile) (n : Nat) :
    List Nat × BufReaderSt × PhysFile :=
  if r.buf.isEmpty then
    if bufCap ≤ n then
      let (bytes, f') := f.readBytes n
      (bytes, { buf := [] }, f')
    else
      let (chunk, f') := f.readBytes bufCap
      (chunk.take n, { buf := chunk.drop n }, f')
  else
    (r.buf.take n, { buf := r.buf.drop n }, f)

/-- Models `BufReader::seek` with `SeekFrom::Start`: seek the inner file and
discard the read-ahead buffer. -/
def bufReaderSeekStart (f : PhysFile) (t : Nat) : BufReaderSt × PhysFile :=
  ({ buf := [] }, { f with cursor := t })

/-- State of a `BufWriter<Arc<File>>`: the bytes written by the caller but
not yet flushed to the file. -/
structure BufWriterSt where
  wbuf : List Nat
deriving DecidableEq, Repr

/-- Models `BufWriter::flush`: write the pending bytes to the file at its
cursor and empty the buffer. -/
def BufWriterSt.flushBuf (w : BufWriterSt) (f : PhysFile) : PhysFile :=
  f.writeBytes w.wbuf

/-- Models `BufWriter::write`: flush first when the pending bytes plus the
new bytes would not fit; a request of at least the capacity goes straight to
the file, anything smaller is appended to the buffer.  Either way the call
reports all bytes written. -/
def BufWriterSt.writeBytes (w : BufWriterSt) (f : PhysFile) (bs : List Nat) :
    Nat × BufWriterSt × PhysFile :=
  let w1f1 :=
    if bufCap < w.wbuf.length + bs.length then
      (({ wbuf := [] } : BufWriterSt), w.flushBuf f)
    else (w, f)
  if bufCap ≤ bs.length then
    (bs.length, w1f1.1, w1f1.2.writeBytes bs)
  else
    (bs.length, { wbuf := w1f1.1.wbuf ++ bs }, w1f1.2)

/-- Models `BufWriter::seek` with `SeekFrom::Start`: flush the pending bytes,
then seek the inner file. -/
def bufWriterSeekStart (w : BufWriterSt) (f : PhysFile) (t : Nat) :
    BufWriterSt × PhysFile :=
  ({ wbuf := [] }, { w.flushBuf f with cursor := t })

/-! ### FileStream -/

/-- Enum `FileStreamMode` (file.rs lines 17-20): a buffered reader or a
buffered writer, never both. -/
inductive FileStreamMode where
  | read (r : BufReaderSt)
  | write (w : BufWriterSt)
deriving DecidableEq, Repr

/-- Structure `FileStream` (file.rs lines 9-15): cached position, cached
length, the shared file handle and the current mode.  The unused cached
`Metadata` field is omitted. -/
structure FileStream where
  position : Nat
  len : Nat
  mode : FileStreamMode
  file : PhysFile
deriving DecidableEq, Repr

/-- Function `FileStream::new_write` (file.rs lines 41-57) on a file that
already holds `data`: open without truncation (OS cursor 0), seed the cached
length from metadata, start at position 0 in write mode with a fresh
`BufWriter`. -/
def FileStream.newWrite (data : List Nat) : FileStream :=
  { position := 0, len := data.length, mode := .write { wbuf := [] },
    file := { data := data, cursor := 0 } }

/-- Function `FileStream::new_read` (file.rs lines 23-39), identical except
for the initial mode. -/
def FileStream.newRead (data : List Nat) : FileStream :=
  { position := 0, len := data.length, mode := .read { buf := [] },
    file := { data := data, cursor := 0 } }

/-- Function `FileStream::seek` (file.rs lines 61-72): delegate to the seek
of whichever buffered handle is active, then record the new position.  The
OS-level seek on a regular file succeeds for every `u64` offset. -/
def FileStream.seek (s : FileStream) (t : Nat) : FileStream × Nat :=
  match s.mode with
  | .read _ =>
      let rf := bufReaderSeekStart s.file t
      ({ s with mode := .read rf.1, file := rf.2, position := t }, t)
  | .write w =>
      let wf := bufWriterSeekStart w s.file t
      ({ s with mode := .write wf.1, file := wf.2, position := t }, t)

/-- The error kinds a `FileStream` operation can surface in the model; the
only reachable Rust errors besides physical I/O failures (out of scope) are
the trailing `ErrorKind::Unsupported` returns. -/
inductive FsError where
  | unsupported
deriving DecidableEq, Repr

/-- Function `FileStream::read` (file.rs lines 84-102).  While in write mode:
flush the writer, build a fresh `BufReader` over the shared handle, seek it
to the cached position, switch the mode.  Then, if the mode is read, read
through the buffered reader and advance the cached position by the bytes
transferred; any other mode would return `ErrorKind::Unsupported`. -/
def FileStream.read (s : FileStream) (n : Nat) :
    Except FsError (List Nat × FileStream) :=
  let s1 :=
    match s.mode with
    | .write w =>
        let f1 := w.flushBuf s.file
        let rf := bufReaderSeekStart f1 s.position
        { s with mode := .read rf.1, file := rf.2 }
    | .read _ => s
  match s1.mode with
  | .read r =>
      let orf := r.readBytes s1.file n
      Except.ok (orf.1,
        { s1 with mode := .read orf.2.1, file := orf.2.2,
                  position := s1.position + orf.1.length })
  | .write _ => Except.error .unsupported

/-- Function `FileStream::write` (file.rs lines 106-119).  While in read
mode: replace the mode with a fresh `BufWriter` over the shared handle — the
code performs no seek, so the new writer sits at whatever OS cursor the
discarded reader left.  Then, if the mode is write, write through the
buffered writer and advance both the cached length and the cached position
by the bytes written; any other mode would return `ErrorKind::Unsupported`. -/
def FileStream.write (s : FileStream) (bs : List Nat) :
    Except FsError (Nat × FileStream) :=
  let s1 :=
    match s.mode with
    | .read _ => { s with mode := .write { wbuf := [] } }
    | .write _ => s
  match s1.mode with
  | .write w =>
      let kwf := w.writeBytes s1.file bs
      Except.ok (kwf.1,
        { s1 with mode := .write kwf.2.1, file := kwf.2.2,
                  len := s1.len + kwf.1, position := s1.position + kwf.1 })
  | .read _ => Except.error .unsupported

/-- Function `FileStream::flush` (file.rs lines 121-128): flush the buffered
writer in write mode, do nothing in read mode. -/
def FileStream.flush (s : FileStream) : FileStream :=
  match s.mode with
  | .write w => { s with mode := .write { wbuf := [] }, file := w.flushBuf s.file }
  | .read _ => s

/-! ### Operation traces over a MemoryStream -/

/-- One call through the `MemoryStream` interface. -/
inductive MemOp where
  | seek (t : Nat)
  | getPosition
  | getLen
  | read (n : Nat)
  | write (bs : List Nat)
  | flush
deriving DecidableEq, Repr

/-- Whether an operation is a `write`. -/
def MemOp.isWrite : MemOp → Bool
  | .write _ => true
  | _ => false

/-- State effect of one `MemoryStream` call; `none` models a call that does
not return (the write panic) or fails.  `position`/`len` only report fields;
`flush` is `Ok(())`. -/
def MemoryStream.step (s : MemoryStream) : MemOp → Option MemoryStream
  | .seek t => (s.seek t).map (fun p => p.2)
  | .getPosition => some s
  | .getLen => some s
  | .read n => some (s.read n).2
  | .write bs => (s.write bs).map (fun p => p.2)
  | .flush => some s.flush

/-- Run a sequence of `MemoryStream` calls. -/
def MemoryStream.run (s : MemoryStream) : List MemOp → Option MemoryStream
  | [] => some s
  | op :: ops =>
      match s.step op with
      | some s' => s'.run ops
      | none => none


/-! ### Helper lemmas -/

theorem physWrite_nil (f : PhysFile) (h : f.cursor ≤ f.data.length) :
    f.writeBytes [] = f := by
  simp [PhysFile.writeBytes, Nat.sub_eq_zero_of_le h, List.take_append_drop]

theorem bufWriter_empty_write (f : PhysFile) (bs : List Nat) (hc : f.cursor ≤ f.data.length) :
    (({ wbuf := [] } : BufWriterSt)).writeBytes f bs =
      if bufCap ≤ bs.length then (bs.length, { wbuf := [] }, f.writeBytes bs)
      else (bs.length, { wbuf := bs }, f) := by
  simp only [BufWriterSt.writeBytes, BufWriterSt.flushBuf, List.length_nil, Nat.zero_add,
    physWrite_nil f hc, bufCap]
  by_cases h1 : 8192 ≤ bs.length
  · by_cases h2 : 8192 < bs.length <;> simp [h1, h2]
  · have h2 : ¬ 8192 < bs.length := by omega
    simp [h1, h2]

theorem memWrite_new (b : List Nat) :
    MemoryStream.new.write b = some (b.length, { buffer := b, position := b.length }) := by
  by_cases hb : 0 < b.length
  · simp [MemoryStream.new, MemoryStream.write, hb, List.drop_replicate]
  · have hb' : b = [] := by
      cases b with
      | nil => rfl
      | cons x xs => simp at hb
    subst hb'
    simp [MemoryStream.new, MemoryStream.write]

theorem memWrite_pos0 (s : MemoryStream) (b : List Nat) (hs : s.position = 0) :
    ∃ rest, s.write b = some (b.length, { buffer := b ++ rest, position := b.length }) := by
  by_cases hg : s.buffer.length < b.length
  · refine ⟨(s.buffer ++ List.replicate (b.length - s.buffer.length) 0).drop b.length, ?_⟩
    simp [MemoryStream.write, hs, hg]
  · refine ⟨s.buffer.drop b.length, ?_⟩
    simp [MemoryStream.write, hs, hg]

theorem memRead_front (b rest : List Nat) :
    ((({ buffer := b ++ rest, position := 0 } : MemoryStream)).read b.length).1 = b := by
  by_cases hb : (b ++ rest).length ≤ 0
  · simp only [List.length_append, Nat.le_zero, Nat.add_eq_zero] at hb
    obtain ⟨hb1, hb2⟩ := hb
    obtain rfl := List.length_eq_zero.mp hb1
    obtain rfl := List.length_eq_zero.mp hb2
    simp [MemoryStream.read]
  · have hne : ¬(b = [] ∧ rest = []) := by
      rintro ⟨rfl, rfl⟩
      simp at hb
    have hL : (b ++ rest).length = b.length + rest.length := List.length_append b rest
    have hmin : min (0 + b.length) (b ++ rest).length = b.length := by
      rw [hL]
      omega
    simp [MemoryStream.read, hb, hmin, List.take_left, hne]

theorem memRead_all (b : List Nat) (n : Nat) (hn : b.length ≤ n) :
    ((({ buffer := b, position := 0 } : MemoryStream)).read n).1 = b := by
  by_cases hb : b.length ≤ 0
  · have hb0 : b.length = 0 := by omega
    obtain rfl := List.length_eq_zero.mp hb0
    simp [MemoryStream.read]
  · have hmin : min (0 + n) b.length = b.length := by omega
    simp [MemoryStream.read, hb, hmin, List.take_length, hn]

theorem fileWrite_then_seek_new (b : List Nat) :
    ∃ s1 : FileStream, (FileStream.newWrite []).write b = Except.ok (b.length, s1)
      ∧ (s1.seek 0).1 = ⟨0, b.length, .write ⟨[]⟩, ⟨b, 0⟩⟩ := by
  by_cases hb : bufCap ≤ b.length
  · refine ⟨⟨b.length, b.length, .write ⟨[]⟩, ⟨b, b.length⟩⟩, ?_, ?_⟩
    · simp only [FileStream.newWrite, FileStream.write,
        bufWriter_empty_write ⟨[], 0⟩ b (by simp), if_pos hb]
      simp [PhysFile.writeBytes]
    · simp only [FileStream.seek, bufWriterSeekStart, BufWriterSt.flushBuf,
        physWrite_nil ⟨b, b.length⟩ (by simp)]
  · refine ⟨⟨b.length, b.length, .write ⟨b⟩, ⟨[], 0⟩⟩, ?_, ?_⟩
    · simp only [FileStream.newWrite, FileStream.write,
        bufWriter_empty_write ⟨[], 0⟩ b (by simp), if_neg hb]
      simp
    · simp only [FileStream.seek, bufWriterSeekStart, BufWriterSt.flushBuf]
      simp [PhysFile.writeBytes]

theorem fileRead_canonical (b : List Nat) (n : Nat) (hn : b.length ≤ n) :
    ((⟨0, b.length, .write ⟨[]⟩, ⟨b, 0⟩⟩ : FileStream)).read n
      = Except.ok (b, (⟨b.length, b.length, .read ⟨[]⟩, ⟨b, b.length⟩⟩ : FileStream)) := by
  simp only [FileStream.read, BufWriterSt.flushBuf, physWrite_nil ⟨b, 0⟩ (by simp),
    bufReaderSeekStart, BufReaderSt.readBytes, List.isEmpty_nil, if_true]
  by_cases hc : bufCap ≤ n
  · have hmin : min n (b.length - 0) = b.length := by omega
    simp [hc, PhysFile.readBytes, hmin, List.take_length, hn]
  · have hb2 : b.length ≤ bufCap := by
      simp only [bufCap] at hc ⊢
      omega
    have h1 : bufCap ⊓ b.length = b.length := Nat.min_eq_right hb2
    have h2 : n ⊓ b.length = b.length := Nat.min_eq_right hn
    simp [hc, PhysFile.readBytes, h1, h2, List.take_length, hb2, hn,
      List.take_of_length_le hn, List.drop_eq_nil_of_le hn]

theorem memRead_buffer (s : MemoryStream) (n : Nat) : (s.read n).2.buffer = s.buffer := by
  by_cases hp : s.buffer.length ≤ s.position
  · simp [MemoryStream.read, if_pos hp]
  · simp [MemoryStream.read, if_neg hp]

theorem memWrite_some (s : MemoryStream) (bs : List Nat) (r : Nat × MemoryStream)
    (h : s.write bs = some r) :
    s.position ≤ s.buffer.length
      ∧ r.2.buffer.length = max s.buffer.length (s.position + bs.length) := by
  by_cases hp : s.position ≤ s.buffer.length
  · refine ⟨hp, ?_⟩
    simp only [MemoryStream.write, if_pos hp] at h
    injection h with h
    rw [← h]
    by_cases hg : s.buffer.length - s.position < bs.length <;>
      simp [hg, List.length_take, List.length_drop, List.length_append,
        List.length_replicate] <;> omega
  · simp only [MemoryStream.write, if_neg hp] at h
    exact absurd h (by simp)

theorem memStep_buffer (s s' : MemoryStream) (op : MemOp) (h : s.step op = some s') :
    s.buffer.length ≤ s'.buffer.length ∧ (op.isWrite = false → s'.buffer = s.buffer) := by
  cases op with
  | seek t =>
      by_cases ht : t < 18446744073709551616
      · simp [MemoryStream.step, MemoryStream.seek, tryIntoUsize, ht] at h
        rw [← h]
        exact ⟨le_rfl, fun _ => rfl⟩
      · simp [MemoryStream.step, MemoryStream.seek, tryIntoUsize, ht] at h
  | getPosition =>
      simp [MemoryStream.step] at h
      rw [← h]
      exact ⟨le_rfl, fun _ => rfl⟩
  | getLen =>
      simp [MemoryStream.step] at h
      rw [← h]
      exact ⟨le_rfl, fun _ => rfl⟩
  | flush =>
      simp [MemoryStream.step, MemoryStream.flush] at h
      rw [← h]
      exact ⟨le_rfl, fun _ => rfl⟩
  | read n =>
      simp [MemoryStream.step] at h
      rw [← h, memRead_buffer]
      exact ⟨le_rfl, fun _ => rfl⟩
  | write bs =>
      rw [MemoryStream.step] at h
      cases hw : s.write bs with
      | none =>
          rw [hw] at h
          simp at h
      | some r =>
          rw [hw] at h
          simp only [Option.map_some'] at h
          injection h with h
          rw [← h]
          obtain ⟨-, hlen⟩ := memWrite_some s bs r hw
          exact ⟨by omega, fun hfalse => by simp [MemOp.isWrite] at hfalse⟩

/-! ### Claim theorems -/

/-- Claim C1: the spec promises that seeking past the end and then writing
succeeds and zero-fills the gap.  The code instead never returns: with the
buffer empty and the position seeked to 1, `MemoryStream::write` underflows
`buffer.len() - position` (debug panic) resp. indexes the slice
`buffer[1..2]` out of bounds (release panic), modelled as `none`; the claim
expects `some` with buffer `[0, 7]`. -/
theorem memoryStream_sparse_write_fails :
    (MemoryStream.new.seek 1).bind (fun p => p.2.write [7]) = none := by
  rfl

/-- Claim C2: on a fresh `FileStream`, writing `[0,1,2,3,4,5]`, seeking to 0
and reading 6 bytes returns the written bytes (write-to-read transition
flushes the writer and seeks the fresh reader to the current position);
then seeking to 2, writing `[9,9]`, seeking to 0 and reading 6 bytes
returns `[0,1,9,9,4,5]` (read-to-write transition and partial overwrite
without truncation). -/
theorem fileStream_mode_switch_scenario :
    (do
      let r1 ← (FileStream.newWrite []).write [0, 1, 2, 3, 4, 5]
      let s2 := (r1.2.seek 0).1
      let r2 ← s2.read 6
      let s4 := (r2.2.seek 2).1
      let r3 ← s4.write [9, 9]
      let s6 := (r3.2.seek 0).1
      let r4 ← s6.read 6
      pure (r2.1, r4.1) : Except FsError (List Nat × List Nat))
    = Except.ok ([0, 1, 2, 3, 4, 5], [0, 1, 9, 9, 4, 5]) := by
  rfl

/-- Claim C3: the claim says a write entirely within existing bounds leaves
`len()` unchanged.  `FileStream::write` instead always adds the bytes
written to the cached length: after writing 6 bytes, seeking to 0 and
overwriting 2 of them, `len()` reports 8 while the flushed file still holds
6 bytes.  (For `MemoryStream` the claim does hold; the code bug is the
unconditional `self.len += size` in file.rs line 113.) -/
theorem fileStream_cached_len_overcounts_overwrite :
    (do
      let r1 ← (FileStream.newWrite []).write [0, 1, 2, 3, 4, 5]
      let s2 := (r1.2.seek 0).1
      let r2 ← s2.write [9, 9]
      pure (r2.2.len, r2.2.flush.file.data.length) : Except FsError (Nat × Nat))
    = Except.ok (8, 6) := by
  rfl

/-- Claim C4: the claim says the fresh buffered writer built on a
read-to-write transition is positioned at the cached position, so the bytes
land there.  The code builds `BufWriter::new(self.file.clone())` without any
seek, so the bytes land at the OS cursor the discarded reader's read-ahead
left: after writing `[0,1,2,3,4,5]`, seeking to 0 and reading 2 bytes the
cached position is 2 but the shared cursor is 6; the subsequent write of
`[9,9]`, once flushed, yields the file `[0,1,2,3,4,5,9,9]` instead of the
claimed `[0,1,9,9,4,5]`. -/
theorem fileStream_write_after_read_lands_at_cursor :
    (do
      let r1 ← (FileStream.newWrite []).write [0, 1, 2, 3, 4, 5]
      let s2 := (r1.2.seek 0).1
      let r2 ← s2.read 2
      let r3 ← r2.2.write [9, 9]
      pure (r2.1, r2.2.position, r3.2.flush.file.data)
        : Except FsError (List Nat × Nat × List Nat))
    = Except.ok ([0, 1], 2, [0, 1, 2, 3, 4, 5, 9, 9]) := by
  rfl

/-- Claim C5: round-trip for the writable backends.  For any `MemoryStream`
positioned at 0, writing `b`, seeking back to 0 and reading `b.length`
bytes returns exactly `b`; a fresh `MemoryStream` after writing `b` has
`len() = b.length` and any read of at least `b.length` bytes from position
0 returns exactly `b` (read-to-end); a fresh `FileStream` over an empty
file behaves the same.  Instantiated at `b = [42, 10]` this is the spec's
memory write/extend scenario. -/
theorem stream_write_seek_read_round_trip (b : List Nat) (n : Nat) (s : MemoryStream)
    (hn : b.length ≤ n) (hs : s.position = 0) :
    (∃ s1 s2, s.write b = some (b.length, s1) ∧ s1.seek 0 = some (0, s2)
        ∧ (s2.read b.length).1 = b)
    ∧ (∃ m1 m2, MemoryStream.new.write b = some (b.length, m1)
        ∧ m1.seek 0 = some (0, m2) ∧ m2.len = b.length ∧ (m2.read n).1 = b)
    ∧ (∃ fs1 out fs3, (FileStream.newWrite []).write b = Except.ok (b.length, fs1)
        ∧ (fs1.seek 0).1.len = b.length
        ∧ (fs1.seek 0).1.read n = Except.ok (out, fs3) ∧ out = b) := by
  refine ⟨?_, ?_, ?_⟩
  · obtain ⟨rest, hw⟩ := memWrite_pos0 s b hs
    refine ⟨_, _, hw, ?_, memRead_front b rest⟩
    simp [MemoryStream.seek, tryIntoUsize]
  · refine ⟨_, _, memWrite_new b, ?_, ?_, memRead_all b n hn⟩
    · simp [MemoryStream.seek, tryIntoUsize]
    · simp [MemoryStream.len]
  · obtain ⟨s1, hw, hseek⟩ := fileWrite_then_seek_new b
    refine ⟨s1, b, _, hw, by rw [hseek], by rw [hseek]; exact fileRead_canonical b n hn, rfl⟩

/-- Witness for the round-trip theorem at the spec's concrete scenario:
`b = [42, 10]`, a read-to-end destination of 32 bytes, starting from a
fresh `MemoryStream`. -/
theorem stream_write_seek_read_round_trip_witness :
    ([42, 10] : List Nat).length ≤ 32
    ∧ MemoryStream.new.position = 0
    ∧ ((∃ s1 s2, MemoryStream.new.write [42, 10] = some (([42, 10] : List Nat).length, s1)
          ∧ s1.seek 0 = some (0, s2)
          ∧ (s2.read ([42, 10] : List Nat).length).1 = [42, 10])
      ∧ (∃ m1 m2, MemoryStream.new.write [42, 10] = some (([42, 10] : List Nat).length, m1)
          ∧ m1.seek 0 = some (0, m2) ∧ m2.len = ([42, 10] : List Nat).length
          ∧ (m2.read 32).1 = [42, 10])
      ∧ (∃ fs1 out fs3, (FileStream.newWrite []).write [42, 10]
            = Except.ok (([42, 10] : List Nat).length, fs1)
          ∧ (fs1.seek 0).1.len = ([42, 10] : List Nat).length
          ∧ (fs1.seek 0).1.read 32 = Except.ok (out, fs3) ∧ out = [42, 10])) :=
  ⟨by decide, rfl,
    stream_write_seek_read_round_trip [42, 10] 32 MemoryStream.new (by decide) rfl⟩

/-- Claim C6: for all three backends, `seek(to)` succeeds whenever the target
is representable in the backend's offset type (`usize`, here any value below
`2 ^ 64`), sets the position to exactly the target — with no upper bound at
the current length — and returns it. -/
theorem seek_sets_position_exactly (ms : MemoryStream) (ss : SliceStream) (fs : FileStream)
    (t : Nat) (h : t < 2 ^ 64) :
    ms.seek t = some (t, { ms with position := t })
    ∧ ss.seek t = some (t, { ss with position := t })
    ∧ (fs.seek t).1.position = t ∧ (fs.seek t).2 = t := by
  have h' : t < 18446744073709551616 := by omega
  refine ⟨?_, ?_, ?_, ?_⟩
  · simp [MemoryStream.seek, tryIntoUsize, h']
  · simp [SliceStream.seek, tryIntoUsize, h']
  · cases hm : fs.mode <;> simp [FileStream.seek, hm]
  · cases hm : fs.mode <;> simp [FileStream.seek, hm]

/-- Witness for the seek theorem: seeking to 3, past the end of two-element
streams, on all three backends. -/
theorem seek_sets_position_exactly_witness :
    (3 : Nat) < 2 ^ 64
    ∧ (({ buffer := [5, 6], position := 0 } : MemoryStream).seek 3
        = some (3, { buffer := [5, 6], position := 3 })
      ∧ ({ buffer := [5, 6], position := 0 } : SliceStream).seek 3
        = some (3, { buffer := [5, 6], position := 3 })
      ∧ ((FileStream.newRead [1, 2]).seek 3).1.position = 3
      ∧ ((FileStream.newRead [1, 2]).seek 3).2 = 3) :=
  ⟨by norm_num,
    seek_sets_position_exactly { buffer := [5, 6], position := 0 }
      { buffer := [5, 6], position := 0 } (FileStream.newRead [1, 2]) 3 (by norm_num)⟩

/-- Claim C7: `read` on `SliceStream` and `MemoryStream` never errors (every
exit of the Rust function is `Ok`, so the model is a total function): it
returns exactly `min(dest.len(), len - position)` bytes taken from the
buffer at `position`, advances the position by that count, and leaves the
buffer unchanged; when `position ≥ len` the count is 0. -/
theorem read_returns_min_and_advances (ms : MemoryStream) (ss : SliceStream) (n : Nat) :
    ((ms.read n).1 = (ms.buffer.drop ms.position).take (min n (ms.buffer.length - ms.position))
     ∧ (ms.read n).1.length = min n (ms.buffer.length - ms.position)
     ∧ (ms.read n).2.position = ms.position + min n (ms.buffer.length - ms.position)
     ∧ (ms.read n).2.buffer = ms.buffer)
    ∧ ((ss.read n).1 = (ss.buffer.drop ss.position).take (min n (ss.buffer.length - ss.position))
     ∧ (ss.read n).1.length = min n (ss.buffer.length - ss.position)
     ∧ (ss.read n).2.position = ss.position + min n (ss.buffer.length - ss.position)
     ∧ (ss.read n).2.buffer = ss.buffer) := by
  constructor
  · by_cases hp : ms.buffer.length ≤ ms.position
    · have h0 : ms.buffer.length - ms.position = 0 := by omega
      simp [MemoryStream.read, if_pos hp, h0]
    · have hc : min (ms.position + n) ms.buffer.length - ms.position
          = min n (ms.buffer.length - ms.position) := by omega
      refine ⟨?_, ?_, ?_, ?_⟩ <;>
        simp [MemoryStream.read, if_neg hp, hc, List.length_take, List.length_drop]
  · by_cases hp : ss.buffer.length ≤ ss.position
    · have h0 : ss.buffer.length - ss.position = 0 := by omega
      simp [SliceStream.read, if_pos hp, h0]
    · have hc : min (ss.position + n) ss.buffer.length - ss.position
          = min n (ss.buffer.length - ss.position) := by omega
      refine ⟨?_, ?_, ?_, ?_⟩ <;>
        simp [SliceStream.read, if_neg hp, hc, List.length_take, List.length_drop]

/-- Claim C8: on every backend, every successful read or write of `n` bytes
advances the position by exactly `n`: the count a read returns is the length
of the bytes delivered, the count a write returns is the bytes written. -/
theorem position_advances_by_bytes_transferred :
    (∀ (s : MemoryStream) (n : Nat),
        (s.read n).2.position = s.position + (s.read n).1.length)
    ∧ (∀ (s : MemoryStream) (bs : List Nat) (k : Nat) (s' : MemoryStream),
        s.write bs = some (k, s') → s'.position = s.position + k)
    ∧ (∀ (s : SliceStream) (n : Nat),
        (s.read n).2.position = s.position + (s.read n).1.length)
    ∧ (∀ (fs : FileStream) (n : Nat) (out : List Nat) (fs' : FileStream),
        fs.read n = Except.ok (out, fs') → fs'.position = fs.position + out.length)
    ∧ (∀ (fs : FileStream) (bs : List Nat) (k : Nat) (fs' : FileStream),
        fs.write bs = Except.ok (k, fs') → fs'.position = fs.position + k) := by
  refine ⟨?_, ?_, ?_, ?_, ?_⟩
  · intro s n
    by_cases hp : s.buffer.length ≤ s.position
    · simp [MemoryStream.read, if_pos hp]
    · simp [MemoryStream.read, if_neg hp, List.length_take, List.length_drop]
      omega
  · intro s bs k s' h
    by_cases hp : s.position ≤ s.buffer.length
    · simp [MemoryStream.write, if_pos hp] at h
      obtain ⟨hk, hs'⟩ := h
      subst hk
      rw [← hs']
    · simp [MemoryStream.write, if_neg hp] at h
  · intro s n
    by_cases hp : s.buffer.length ≤ s.position
    · simp [SliceStream.read, if_pos hp]
    · simp [SliceStream.read, if_neg hp, List.length_take, List.length_drop]
      omega
  · intro fs n out fs' h
    cases hm : fs.mode <;> simp [FileStream.read, hm] at h <;>
      (obtain ⟨h1, h2⟩ := h; rw [← h1, ← h2])
  · intro fs bs k fs' h
    cases hm : fs.mode <;> simp [FileStream.write, hm] at h <;>
      (obtain ⟨h1, h2⟩ := h; rw [← h1, ← h2])

/-- Witness for the position-advance theorem: a mid-buffer memory read, a
memory overwrite, a short slice read, a fresh-file read and a fresh-file
write, at concrete inputs. -/
theorem position_advances_by_bytes_transferred_witness :
    ((({ buffer := [1, 2, 3], position := 1 } : MemoryStream)).read 2).2.position
      = ({ buffer := [1, 2, 3], position := 1 } : MemoryStream).position
        + ((({ buffer := [1, 2, 3], position := 1 } : MemoryStream)).read 2).1.length
    ∧ ({ buffer := [1, 9, 3], position := 2 } : MemoryStream).position
      = ({ buffer := [1, 2, 3], position := 1 } : MemoryStream).position + 1
    ∧ ((({ buffer := [7], position := 0 } : SliceStream)).read 5).2.position
      = ({ buffer := [7], position := 0 } : SliceStream).position
        + ((({ buffer := [7], position := 0 } : SliceStream)).read 5).1.length
    ∧ ((⟨2, 2, .read ⟨[]⟩, ⟨[1, 2], 2⟩⟩ : FileStream)).position
      = (FileStream.newRead [1, 2]).position + ([1, 2] : List Nat).length
    ∧ ((⟨1, 1, .write ⟨[5]⟩, ⟨[], 0⟩⟩ : FileStream)).position
      = (FileStream.newWrite []).position + 1 :=
  ⟨position_advances_by_bytes_transferred.1 _ 2,
   position_advances_by_bytes_transferred.2.1 _ [9] 1 _ rfl,
   position_advances_by_bytes_transferred.2.2.1 _ 5,
   position_advances_by_bytes_transferred.2.2.2.1 (FileStream.newRead [1, 2]) 2 [1, 2] _ rfl,
   position_advances_by_bytes_transferred.2.2.2.2 (FileStream.newWrite []) [5] 1 _ rfl⟩

/-- Claim C9: the trailing `ErrorKind::Unsupported` branches of
`FileStream::read` and `FileStream::write` are unreachable: after the
mode-switch prologue the mode is always the one the second match expects,
so both operations return `Ok` on every state in the model. -/
theorem fileStream_unsupported_branch_unreachable :
    (∀ (s : FileStream) (n : Nat), ∃ r, s.read n = Except.ok r)
    ∧ (∀ (s : FileStream) (bs : List Nat), ∃ r, s.write bs = Except.ok r) := by
  constructor
  · intro s n
    cases hm : s.mode <;> simp [FileStream.read, hm]
  · intro s bs
    cases hm : s.mode <;> simp [FileStream.write, hm]

/-- Claim C10: along every successful sequence of `MemoryStream` calls the
owned buffer's length never decreases, and a sequence containing no write
leaves the buffer — contents included — exactly as it was: seek, position,
len, read and flush never touch it. -/
theorem memoryStream_buffer_monotone (ops : List MemOp) (s s' : MemoryStream)
    (h : s.run ops = some s') :
    s.buffer.length ≤ s'.buffer.length
    ∧ ((∀ op ∈ ops, op.isWrite = false) → s'.buffer = s.buffer) := by
  induction ops generalizing s with
  | nil =>
      simp [MemoryStream.run] at h
      rw [← h]
      exact ⟨le_rfl, fun _ => rfl⟩
  | cons op ops ih =>
      rw [MemoryStream.run] at h
      cases hst : s.step op with
      | none =>
          rw [hst] at h
          simp at h
      | some s1 =>
          rw [hst] at h
          obtain ⟨h1, h2⟩ := memStep_buffer s s1 op hst
          obtain ⟨h3, h4⟩ := ih s1 h
          refine ⟨le_trans h1 h3, fun hall => ?_⟩
          rw [h4 (fun o ho => hall o (List.mem_cons_of_mem _ ho)),
            h2 (hall op (List.mem_cons_self _ _))]

/-- Witness for the buffer-monotonicity theorem: a write-free trace of a
past-the-end seek, a read and a flush on a three-byte stream. -/
theorem memoryStream_buffer_monotone_witness :
    (3 : Nat) ≤ (({ buffer := [1, 2, 3], position := 5 } : MemoryStream)).buffer.length
    ∧ ({ buffer := [1, 2, 3], position := 5 } : MemoryStream).buffer
        = ({ buffer := [1, 2, 3], position := 0 } : MemoryStream).buffer := by
  have h := memoryStream_buffer_monotone [MemOp.seek 5, MemOp.read 2, MemOp.flush]
    { buffer := [1, 2, 3], position := 0 } { buffer := [1, 2, 3], position := 5 } (by rfl)
  exact ⟨h.1, h.2 (by decide)⟩

end GoatStream
